import Mathlib

/- Verification of the vss static-site build pipeline (package `vss`).

   The definitions below are a shallow embedding of the Go source:
   `Builder.Run`, `renderContent`, `getFileData`, `getRenderContext`,
   `initTemplateMap`, `lookUpTemplate`, `replaceExt`,
   `convertMarkdownPathToHtmlPath`, `copyStatic`, `existDir`,
   `createDistFile`, `getFilePathsByExt`, `purgeIgnoreFiles`, together
   with the Go standard-library path helpers they call
   (`filepath.Clean`, `filepath.Join`, `filepath.Dir`, `filepath.Ext`,
   `filepath.Base`, `filepath.ToSlash`, `strings.TrimSuffix`,
   `strings.HasSuffix`, `strings.ToLower`).

   External collaborators (the front-matter parser, the goldmark
   Markdown engine, the mustache template engine, the twemoji PNG
   renderer, and raw file-system primitives) are passed in as explicit
   function parameters ("oracles"), exactly at the interface boundary
   at which the source invokes them.  Paths are modelled as `String`
   over the unix separator; raw file contents are modelled as `String`
   (Go compares them with `bytes.Equal`, which coincides with string
   equality). -/

/-! ## Go `path/filepath` helpers (unix rules) -/

def isSep (c : Char) : Bool := c = '/'

/-- Inner loop of the lazybuf backtracking that Go `filepath.Clean`
performs for a `..` element: starting from write index `w`, step back
while above `dd` and the buffer character at the index is not a
separator. -/
def popW (buf : List Char) (dd : Nat) : Nat → Nat
  | 0 => 0
  | w + 1 => if dd < w + 1 ∧ buf.getD (w + 1) '/' ≠ '/' then popW buf dd w else w + 1

/-- Dropping the last path element (and its separator) from the output
buffer, as Go `filepath.Clean` does on `..`. -/
def popElem (out : List Char) (dd : Nat) : List Char :=
  out.take (popW out dd (out.length - 1))

/-- The element-processing loop of Go `filepath.Clean`.  The fuel
argument only bounds the number of iterations; every iteration consumes
at least one input character, so fuel `input.length + 1` is always
enough. -/
def cleanLoop (rooted : Bool) : Nat → List Char → List Char → Nat → List Char
  | 0, _, out, _ => out
  | _ + 1, [], out, _ => out
  | fuel + 1, c :: rest, out, dotdot =>
    if isSep c then cleanLoop rooted fuel rest out dotdot
    else if c = '.' ∧ (rest = [] ∨ rest.head? = some '/') then
      cleanLoop rooted fuel rest out dotdot
    else if c = '.' ∧ rest.head? = some '.' ∧ (rest.tail = [] ∨ rest.tail.head? = some '/') then
      (let rest2 := rest.tail
       if dotdot < out.length then cleanLoop rooted fuel rest2 (popElem out dotdot) dotdot
       else if ¬ rooted then
         (let out2 := (if 0 < out.length then out ++ ['/'] else out) ++ ['.', '.']
          cleanLoop rooted fuel rest2 out2 out2.length)
       else cleanLoop rooted fuel rest2 out dotdot)
    else
      (let elem := (c :: rest).takeWhile (fun x => ¬ isSep x)
       let rest2 := (c :: rest).dropWhile (fun x => ¬ isSep x)
       let out2 := (if (rooted ∧ out.length ≠ 1) ∨ (¬ rooted ∧ out.length ≠ 0) then out ++ ['/'] else out) ++ elem
       cleanLoop rooted fuel rest2 out2 dotdot)

/-- Go `filepath.Clean` with the unix separator. -/
def cleanGo (path : String) : String :=
  if path = "" then "."
  else
    let cs := path.data
    let rooted := cs.head? = some '/'
    let out0 : List Char := if rooted then ['/'] else []
    let dd0 : Nat := if rooted then 1 else 0
    let res := cleanLoop rooted (cs.length + 1) cs out0 dd0
    if res.length = 0 then "." else String.mk res

/-- Go `filepath.Join`: drop leading empty elements, join the rest with
the separator, and clean. -/
def joinGo (elems : List String) : String :=
  match elems.dropWhile (fun e => e = "") with
  | [] => ""
  | l => cleanGo (String.intercalate "/" l)

/-- Go `filepath.Dir`: everything up to (and including) the final
separator, cleaned. -/
def dirGo (path : String) : String :=
  let cs := path.data
  let pre := (cs.reverse.dropWhile (fun c => ¬ isSep c)).reverse
  cleanGo (String.mk pre)

/-- Scanning loop of Go `filepath.Ext` over the reversed character
list: stop at a separator with no extension, or return the suffix from
the final dot. -/
def extGoAux : List Char → List Char → String
  | [], _ => ""
  | c :: rest, acc =>
    if isSep c then ""
    else if c = '.' then String.mk ('.' :: acc)
    else extGoAux rest (c :: acc)

/-- Go `filepath.Ext`: the suffix beginning at the final dot of the
final element, empty if there is none. -/
def extGo (path : String) : String := extGoAux path.data.reverse []

/-- Go `filepath.Base`: the last element of the path, after stripping
trailing separators. -/
def baseGo (path : String) : String :=
  if path = "" then "."
  else
    let cs := path.data.reverse.dropWhile isSep
    let name := cs.takeWhile (fun c => ¬ isSep c)
    if name = [] then "/" else String.mk name.reverse

/-- Go `filepath.ToSlash`: replace the OS separator by a forward slash
(the identity on unix, kept explicit because the source calls it to be
platform independent). -/
def toSlash (path : String) : String :=
  String.mk (path.data.map (fun c => if isSep c then '/' else c))

/-- Go `strings.ToLower` (on the ASCII range used by the source). -/
def toLowerGo (s : String) : String := String.mk (s.data.map Char.toLower)

/-- Go `strings.HasSuffix`. -/
def hasSuffixGo (s suffix : String) : Bool := suffix.data.isSuffixOf s.data

/-- Go `strings.TrimSuffix`. -/
def trimSuffixGo (s suffix : String) : String :=
  if hasSuffixGo s suffix then String.mk (s.data.take (s.data.length - suffix.data.length))
  else s

/-! ## `replaceExt` and the markdown-to-html path map (source lines 259-270) -/

/-- `replaceExt` from the source: replace the final extension by
`toExt` when its lowercasing equals `fromExt` (a non-empty pattern),
otherwise return the path unchanged. -/
def replaceExt (filePath fromExt toExt : String) : String :=
  let ext := extGo filePath
  if 0 < fromExt.data.length ∧ toLowerGo ext ≠ fromExt then filePath
  else String.mk (filePath.data.take (filePath.data.length - ext.data.length)) ++ toExt

/-- `convertMarkdownPathToHtmlPath` from the source. -/
def convertMarkdownPathToHtmlPath (markdownPath : String) : String :=
  replaceExt markdownPath ".md" ".html"

/-! ## Render-context values and the render context (source lines 209-224) -/

/-- A closed model of the dynamic `interface{}` values that the Go code
stores in its render-context map. -/
inductive Val
  | str (s : String)
  | num (n : Int)
  | boolean (b : Bool)
deriving DecidableEq, Repr

/-- A Go `map[string]interface{}` is modelled as a function to
`Option Val`; insertion is pointwise update. -/
abbrev RContext := String → Option Val

/-- Insertion `m[k] = v` into a Go map. -/
def mapSet (m : RContext) (k : String) (v : Val) : RContext :=
  fun q => if q = k then some v else m q

/-- The `for k, v := range l { m[k] = v }` loop: fold the entry list
into the map.  The Go iteration order is unspecified; the list order
stands for one such order (for maps, whose keys are unique, the result
is order independent). -/
def mapOfList (l : List (String × Val)) (m0 : RContext) : RContext :=
  l.foldl (fun m kv => mapSet m kv.1 kv.2) m0

/-- `getRenderContext` from the source: a fresh map receives
`"contents" = filedata.Content` first, then every entry of the base
render context, then every entry of the front-matter map.  `base` and
`fmMap` are the enumerations of `b.baseRenderContext` and
`filedata.FrontMatter.AsMap()` respectively. -/
def getRenderContext (base fmMap : List (String × Val)) (content : String) : RContext :=
  mapOfList fmMap (mapOfList base (mapSet (fun _ => none) "contents" (Val.str content)))

/-! ## The template registry (source lines 226-257) -/

/-- A parsed mustache template handle; opaque except for identity. -/
structure Template where
  name : String
deriving DecidableEq, Repr

/-- `initTemplateMap` from the source: parse every template file,
aborting on the first parse failure; the resulting registry maps each
file path to its parsed handle.  `parseFile` is the external
`mustache.ParseFile`. -/
def initTemplateMap (parseFile : String → Except String Template) :
    List String → Except String (List (String × Template))
  | [] => .ok []
  | f :: rest =>
    match parseFile f with
    | .error e => .error e
    | .ok t =>
      match initTemplateMap parseFile rest with
      | .error e => .error e
      | .ok m => .ok ((f, t) :: m)

/-- `lookUpTemplate` from the source: three-tier lookup in the template
registry — the exact output path under the layouts root, then the
directory default, then the global default — failing only when all
three keys are absent. -/
def lookUpTemplate (templateMap : List (String × Template)) (layoutsDir path : String) :
    Except String Template :=
  let dir := dirGo path
  match List.lookup (joinGo [layoutsDir, path]) templateMap with
  | some t => .ok t
  | none =>
    match List.lookup (joinGo [layoutsDir, dir, "default.html"]) templateMap with
    | some t => .ok t
    | none =>
      match List.lookup (joinGo [layoutsDir, "default.html"]) templateMap with
      | some t => .ok t
      | none => .error "template not found"

/-! ## Front matter and `getFileData` (source lines 182-206) -/

/-- The parsed YAML front matter.  The named fields are the ones the
source reads (`PostSlug`, `OgImage`, `Emoji`); `extra` carries the
arbitrary additional key/value pairs that the front-matter schema
passes through verbatim. -/
structure YamlFrontMatter where
  postSlug : String
  ogImage : String
  emoji : String
  extra : List (String × Val)
deriving DecidableEq, Repr

/-- The Go zero value of `YamlFrontMatter`. -/
def defaultYfm : YamlFrontMatter := { postSlug := "", ogImage := "", emoji := "", extra := [] }

/-- The intermediate document produced by `getFileData`. -/
structure FileData where
  path : String
  content : String
  frontMatter : YamlFrontMatter
deriving DecidableEq, Repr

/-- `getFileData` from the source: read the file, split off front
matter (`frontmatter.Parse`), render the remainder with goldmark, and
keep the parsed front matter only when the parser changed the bytes —
when the remainder is byte-identical to the original content the
document keeps the zero front matter.  `readFile`, `parseFM` and `gm`
are the external `os.ReadFile`, `frontmatter.Parse` and
`goldmark.Convert`. -/
def getFileData (readFile : String → Except String String)
    (parseFM : String → Except String (YamlFrontMatter × String))
    (gm : String → Except String String) (markdownPath : String) :
    Except String FileData :=
  match readFile markdownPath with
  | .error e => .error e
  | .ok content =>
    match parseFM content with
    | .error e => .error e
    | .ok (yfm, markdown) =>
      match gm markdown with
      | .error e => .error e
      | .ok buf =>
        let fd : FileData := { path := markdownPath, content := buf, frontMatter := defaultYfm }
        if content = markdown then .ok fd
        else .ok { fd with frontMatter := yfm }

/-! ## The page renderer `renderContent` (source lines 136-180) -/

/-- File-system effects performed by one `renderContent` call, in
order. -/
inductive FsEvent
  | mkdirAll (dir : String)
  | createFile (path : String)
  | writePng (path : String)
  | writeRendered (path : String)
deriving DecidableEq, Repr

/-- The environment a `Builder` render call runs in: configuration
fields, the preloaded template registry and base context, and the
external capabilities (`os.MkdirAll` / `os.Create` failure behavior,
`os.ReadFile`, `frontmatter.Parse`, goldmark, `FrontMatter.AsMap`,
`SaveTwemojiPng`, `mustache.Template.FRender`). -/
structure RenderEnv where
  dist : String
  layouts : String
  templateMap : List (String × Template)
  base : List (String × Val)
  existDir : String → Bool
  mkdirErr : String → Option String
  createErr : String → Option String
  readFile : String → Except String String
  parseFM : String → Except String (YamlFrontMatter × String)
  gm : String → Except String String
  asMapF : YamlFrontMatter → List (String × Val)
  saveTwemoji : String → Except String Unit
  frender : Template → RContext → Except String Unit

/-- `createDistFile` from the source (lines 420-429): make the parent
directory when missing, then create (truncate) the destination file.
Returns the events actually performed. -/
def createDistFile (env : RenderEnv) (target : String) :
    Except String Unit × List FsEvent :=
  let dir := dirGo target
  let first : Except String Unit × List FsEvent :=
    if ¬ env.existDir dir then
      match env.mkdirErr dir with
      | some e => (.error e, [])
      | none => (.ok (), [.mkdirAll dir])
    else (.ok (), [])
  match first with
  | (.error e, ev) => (.error e, ev)
  | (.ok (), ev) =>
    match env.createErr target with
    | some e => (.error e, ev)
    | none => (.ok (), ev ++ [.createFile target])

/-- The post-slug defaulting step of `renderContent` (lines 154-158):
an empty slug becomes the html output path with the `.html` suffix
trimmed and separators normalized to forward slashes. -/
def defaultPostSlug (htmlPath : String) (yfm : YamlFrontMatter) : YamlFrontMatter :=
  if yfm.postSlug = "" then { yfm with postSlug := toSlash (trimSuffixGo htmlPath ".html") }
  else yfm

/-- The og-image side effect of `renderContent` (lines 160-173): when
no OgImage is set but an emoji is, create a sibling `.png` under the
dist tree, render the emoji into it, and record its slash path. -/
def renderOgImage (env : RenderEnv) (markdownPath : String) (yfm : YamlFrontMatter) :
    Except String YamlFrontMatter × List FsEvent :=
  if yfm.ogImage = "" ∧ yfm.emoji ≠ "" then
    let imagePath := replaceExt markdownPath ".md" ".png"
    let imageDistPath := joinGo [env.dist, imagePath]
    match env.createErr imageDistPath with
    | some e => (.error e, [])
    | none =>
      match env.saveTwemoji yfm.emoji with
      | .error e => (.error e, [.createFile imageDistPath])
      | .ok () => (.ok { yfm with ogImage := toSlash imagePath },
                   [.createFile imageDistPath, .writePng imageDistPath])
  else (.ok yfm, [])

/-- `renderContent` from the source: compute the html output path,
create the destination directory and file, look up the template,
extract the document, default the slug, perform the og-image side
effect, build the render context (which never fails), and render the
template into the destination file.  Every failure short-circuits; the
second component lists the file-system effects performed up to that
point. -/
def renderContent (env : RenderEnv) (markdownPath : String) :
    Except String Unit × List FsEvent :=
  let htmlPath := convertMarkdownPathToHtmlPath markdownPath
  let target := joinGo [env.dist, htmlPath]
  match createDistFile env target with
  | (.error e, ev) => (.error e, ev)
  | (.ok (), ev0) =>
    match lookUpTemplate env.templateMap env.layouts htmlPath with
    | .error e => (.error e, ev0)
    | .ok tmpl =>
      match getFileData env.readFile env.parseFM env.gm markdownPath with
      | .error e => (.error e, ev0)
      | .ok fd =>
        let yfm1 := defaultPostSlug htmlPath fd.frontMatter
        match renderOgImage env markdownPath yfm1 with
        | (.error e, ev1) => (.error e, ev0 ++ ev1)
        | (.ok yfm2, ev1) =>
          let rc := getRenderContext env.base (env.asMapF yfm2) fd.content
          match env.frender tmpl rc with
          | .error e => (.error e, ev0 ++ ev1)
          | .ok () => (.ok (), ev0 ++ ev1 ++ [.writeRendered target])

/-! ## Source trees, discovery and static copying (source lines 272-379) -/

/-- A finite file-system subtree: what `filepath.Walk` and `os.ReadDir`
enumerate.  Child lists appear in the deterministic walk order. -/
inductive FNode
  | file (name : String)
  | dir (name : String) (children : List FNode)
deriving Repr

/-- The collection loop of `getFilePathsByExt`: walk the tree, joining
names onto the current path, and keep every regular file whose name
has the (case-sensitive) suffix `ext`. -/
def walkList (pfx ext : String) : List FNode → List String
  | [] => []
  | FNode.file name :: rest =>
    (if hasSuffixGo name ext then [joinGo [pfx, name]] else []) ++ walkList pfx ext rest
  | FNode.dir name children :: rest =>
    walkList (joinGo [pfx, name]) ext children ++ walkList pfx ext rest

/-- `getFilePathsByExt` from the source: `filepath.Walk` fails when the
root cannot be walked (modelled by `none`); otherwise it returns every
matching file path. -/
def getFilePathsByExt (dirPath ext : String) (tree : Option (List FNode)) :
    Except String (List String) :=
  match tree with
  | none => .error "walk error"
  | some children => .ok (walkList dirPath ext children)

/-- File-system effects performed by `copyStatic`. -/
inductive CopyEvent
  | mkdirAll (d : String)
  | copyFile (src dst : String)
deriving DecidableEq, Repr

/-- Failure oracles for the file-system primitives `copyStatic` uses. -/
structure FsOracle where
  mkdirErr : String → Option String
  copyErr : String → String → Option String

/-- The per-entry loop of `copyStatic`: files are copied, directories
are copied recursively (the recursive call's `existDir` check is true
because `os.ReadDir` listed the entry, and its `MkdirAll` runs first). -/
def copyStaticChildren (o : FsOracle) (src dist : String) :
    List FNode → Except String Unit × List CopyEvent
  | [] => (.ok (), [])
  | FNode.file name :: rest =>
    (match o.copyErr (joinGo [src, name]) (joinGo [dist, name]) with
     | some e => (.error e, [])
     | none =>
       match copyStaticChildren o src dist rest with
       | (r, ev) => (r, CopyEvent.copyFile (joinGo [src, name]) (joinGo [dist, name]) :: ev))
  | FNode.dir name sub :: rest =>
    (match o.mkdirErr (joinGo [dist, name]) with
     | some e => (.error e, [])
     | none =>
       match copyStaticChildren o (joinGo [src, name]) (joinGo [dist, name]) sub with
       | (.error e, ev1) => (.error e, CopyEvent.mkdirAll (joinGo [dist, name]) :: ev1)
       | (.ok (), ev1) =>
         match copyStaticChildren o src dist rest with
         | (r, ev2) => (r, CopyEvent.mkdirAll (joinGo [dist, name]) :: ev1 ++ ev2))

/-- `copyStatic` from the source: when the source directory does not
exist (`tree = none`, the `existDir` check), nothing is copied and the
call succeeds with only a notice logged; otherwise the destination
directory is created and every entry is copied recursively. -/
def copyStatic (o : FsOracle) (src dist : String) (tree : Option (List FNode)) :
    Except String Unit × List CopyEvent :=
  match tree with
  | none => (.ok (), [])
  | some children =>
    match o.mkdirErr dist with
    | some e => (.error e, [])
    | none =>
      match copyStaticChildren o src dist children with
      | (r, ev) => (r, CopyEvent.mkdirAll dist :: ev)

/-! ## The coordinator `Run` (source lines 62-120) -/

/-- `purgeIgnoreFiles` from the source: drop every discovered path
whose base name appears in the configured ignore list. -/
def purgeIgnoreFiles (ignoreFiles : List String) (files : List String) : List String :=
  files.filter (fun path => ¬ ignoreFiles.contains (baseGo path))

/-- The error-channel drain of `Run`: the first error among the
per-file results is the build result; with no errors the build
succeeds.  (Which failing file is first depends on goroutine
scheduling; the list order stands for the observed arrival order, and
success or failure of the whole does not depend on it.) -/
def firstErrorOf : List (Except String Unit) → Except String Unit
  | [] => .ok ()
  | .ok () :: rest => firstErrorOf rest
  | .error e :: _ => .error e

/-- `Builder.Run` from the source, with each phase's outcome passed in:
recreate the dist directory, copy static files, discover markdown
files, purge ignored ones, discover and parse layout templates, then
render every file, failing on the first observed error. -/
def runModel (distPrep : Except String Unit) (staticCopy : Except String Unit)
    (mdDiscover : Except String (List String)) (ignoreFiles : List String)
    (tmplDiscover : Except String (List String))
    (parseFile : String → Except String Template)
    (render : String → Except String Unit) : Except String Unit :=
  match distPrep with
  | .error e => .error e
  | .ok () =>
    match staticCopy with
    | .error e => .error e
    | .ok () =>
      match mdDiscover with
      | .error e => .error e
      | .ok files =>
        let files := purgeIgnoreFiles ignoreFiles files
        match tmplDiscover with
        | .error e => .error e
        | .ok tf =>
          match initTemplateMap parseFile tf with
          | .error e => .error e
          | .ok _ => firstErrorOf (files.map render)

/-! ## The goroutine fan-out of `Run` (source lines 92-119)

One rendering goroutine per file sends its error (if any) on an
unbuffered channel; a closer goroutine closes the channel after
`wg.Wait()`; the main goroutine ranges over the channel and returns on
the first received error.  The interleaving semantics is modelled as a
small-step transition system. -/

/-- State of one rendering goroutine: still rendering, blocked sending
its error on the channel, or finished (`wg.Done` reached). -/
inductive TaskSt
  | running
  | sending
  | done
deriving DecidableEq, Repr

/-- State of the main goroutine: ranging over the channel, returned
with the error of task `i`, or returned successfully after the channel
closed. -/
inductive MainSt
  | listening
  | retErr (i : Nat)
  | retOk
deriving DecidableEq, Repr

/-- Global state of the fan-out: the task states, whether the closer
goroutine has closed the channel, and the main goroutine state. -/
structure CoordSt where
  tasks : List TaskSt
  closed : Bool
  main : MainSt
deriving DecidableEq, Repr

/-- Initial state: every task dispatched and running, channel open,
main goroutine ranging. -/
def coordInit (n : Nat) : CoordSt :=
  { tasks := List.replicate n TaskSt.running, closed := false, main := MainSt.listening }

/-- One-step successors of a fan-out state, for the given per-task
outcomes (`true` = the render succeeds).  A running task finishes
(success) or moves to the channel send (failure); a send is a
rendezvous with the listening main goroutine, which thereupon returns
that error while the sender reaches `wg.Done`; the closer closes the
channel once all tasks are done; a listening main goroutine returns
success once the channel is closed. -/
def coordNexts (outcome : List Bool) (s : CoordSt) : List CoordSt :=
  let taskSteps := (List.range s.tasks.length).filterMap (fun i =>
    match s.tasks.get? i, outcome.get? i with
    | some TaskSt.running, some true => some { s with tasks := s.tasks.set i TaskSt.done }
    | some TaskSt.running, some false => some { s with tasks := s.tasks.set i TaskSt.sending }
    | some TaskSt.sending, _ =>
      if s.main = MainSt.listening ∧ ¬ s.closed then
        some { s with tasks := s.tasks.set i TaskSt.done, main := MainSt.retErr i }
      else none
    | _, _ => none)
  let closerStep := if ¬ s.closed ∧ s.tasks.all (· = TaskSt.done) then [{ s with closed := true }] else []
  let mainStep := if s.main = MainSt.listening ∧ s.closed then [{ s with main := MainSt.retOk }] else []
  taskSteps ++ closerStep ++ mainStep

/-- Reachability of fan-out states from the initial state. -/
inductive CoordReach (outcome : List Bool) : CoordSt → Prop
  | init : CoordReach outcome (coordInit outcome.length)
  | step {s t : CoordSt} : CoordReach outcome s → t ∈ coordNexts outcome s → CoordReach outcome t

/-! ## Decidable equality for `Except` results -/

instance exceptDecEq {ε α : Type} [DecidableEq ε] [DecidableEq α] :
    DecidableEq (Except ε α) := fun a b =>
  match a, b with
  | .error e, .error f =>
    if h : e = f then isTrue (by rw [h]) else isFalse (fun c => by cases c; exact h rfl)
  | .error _, .ok _ => isFalse (fun c => by cases c)
  | .ok _, .error _ => isFalse (fun c => by cases c)
  | .ok x, .ok y =>
    if h : x = y then isTrue (by rw [h]) else isFalse (fun c => by cases c; exact h rfl)

/-! ## Lemmas about Go map lookups (association-list form) -/

theorem lookupGo_cons (a : String) (p : String × Val) (l : List (String × Val)) :
    List.lookup a (p :: l) = if a = p.1 then some p.2 else List.lookup a l := by
  by_cases h : a = p.1
  · simp [List.lookup, h]
  · simp [List.lookup, beq_false_of_ne h, h]

theorem lookupGo_nil (a : String) : List.lookup a ([] : List (String × Val)) = none := rfl

theorem lookupGo_append (a : String) (l₁ l₂ : List (String × Val)) :
    List.lookup a (l₁ ++ l₂) = (List.lookup a l₁).or (List.lookup a l₂) := by
  induction l₁ with
  | nil => simp [List.lookup]
  | cons p l ih =>
    rw [List.cons_append, lookupGo_cons, lookupGo_cons]
    by_cases hp : a = p.1 <;> simp [hp, ih]

theorem lookupGo_eq_none (a : String) (l : List (String × Val))
    (h : a ∉ l.map Prod.fst) : List.lookup a l = none := by
  induction l with
  | nil => simp [List.lookup]
  | cons p l ih =>
    simp only [List.map_cons, List.mem_cons, not_or] at h
    rw [lookupGo_cons, if_neg h.1, ih h.2]

theorem lookupGo_reverse (a : String) (l : List (String × Val))
    (h : (l.map Prod.fst).Nodup) : List.lookup a l.reverse = List.lookup a l := by
  induction l with
  | nil => rfl
  | cons p l ih =>
    simp only [List.map_cons, List.nodup_cons] at h
    rw [List.reverse_cons, lookupGo_append, ih h.2]
    rw [lookupGo_cons a p [], lookupGo_nil, lookupGo_cons]
    by_cases hp : a = p.1
    · subst hp
      have hnone : List.lookup p.1 l = none := lookupGo_eq_none _ l h.1
      simp [hnone]
    · simp [hp]

/-- The value a key holds after folding an entry list into a map: the
last binding of the key in the list, or else whatever the starting map
held. -/
theorem mapOfList_get (l : List (String × Val)) (m : RContext) (q : String) :
    mapOfList l m q = (List.lookup q l.reverse).or (m q) := by
  induction l generalizing m with
  | nil => simp [mapOfList, List.lookup]
  | cons kv l ih =>
    have hstep : mapOfList (kv :: l) m = mapOfList l (mapSet m kv.1 kv.2) := rfl
    rw [hstep, ih]
    rw [List.reverse_cons, lookupGo_append]
    cases hv : List.lookup q l.reverse with
    | some v => simp
    | none =>
      rw [lookupGo_cons q kv [], lookupGo_nil]
      by_cases hq : q = kv.1 <;> simp [hq, mapSet]

/-! ## Claim C1 -/

/-- Claim C1: for every template registry and output path, resolution
returns the entry keyed `layoutsRoot/p` when that key exists; otherwise
the entry keyed `layoutsRoot/dirname(p)/default.html` when that key
exists; otherwise the entry keyed `layoutsRoot/default.html` when that
key exists; and it fails with a template-not-found error exactly when
none of the three keys exist. -/
theorem c1_lookUpTemplate_three_tier (m : List (String × Template)) (layoutsDir p : String) :
    (∀ t, List.lookup (joinGo [layoutsDir, p]) m = some t →
      lookUpTemplate m layoutsDir p = .ok t) ∧
    (List.lookup (joinGo [layoutsDir, p]) m = none →
      ∀ t, List.lookup (joinGo [layoutsDir, dirGo p, "default.html"]) m = some t →
        lookUpTemplate m layoutsDir p = .ok t) ∧
    (List.lookup (joinGo [layoutsDir, p]) m = none →
      List.lookup (joinGo [layoutsDir, dirGo p, "default.html"]) m = none →
      ∀ t, List.lookup (joinGo [layoutsDir, "default.html"]) m = some t →
        lookUpTemplate m layoutsDir p = .ok t) ∧
    ((∃ e, lookUpTemplate m layoutsDir p = .error e) ↔
      (List.lookup (joinGo [layoutsDir, p]) m = none ∧
       List.lookup (joinGo [layoutsDir, dirGo p, "default.html"]) m = none ∧
       List.lookup (joinGo [layoutsDir, "default.html"]) m = none)) := by
  refine ⟨?_, ?_, ?_, ?_, ?_⟩
  · intro t ht; simp [lookUpTemplate, ht]
  · intro h1 t ht; simp [lookUpTemplate, h1, ht]
  · intro h1 h2 t ht; simp [lookUpTemplate, h1, h2, ht]
  · rintro ⟨e, he⟩
    cases h1 : List.lookup (joinGo [layoutsDir, p]) m with
    | some t => simp [lookUpTemplate, h1] at he
    | none =>
      cases h2 : List.lookup (joinGo [layoutsDir, dirGo p, "default.html"]) m with
      | some t => simp [lookUpTemplate, h1, h2] at he
      | none =>
        cases h3 : List.lookup (joinGo [layoutsDir, "default.html"]) m with
        | some t => simp [lookUpTemplate, h1, h2, h3] at he
        | none => exact ⟨rfl, rfl, rfl⟩
  · rintro ⟨h1, h2, h3⟩
    exact ⟨"template not found", by simp [lookUpTemplate, h1, h2, h3]⟩

/-- Witness for C1: a registry holding only the directory default for
`blog` resolves `blog/post.html` through the second tier. -/
theorem c1_witness :
    lookUpTemplate [("layouts/blog/default.html", { name := "T2" })] "layouts" "blog/post.html"
      = .ok { name := "T2" } :=
  (c1_lookUpTemplate_three_tier [("layouts/blog/default.html", { name := "T2" })]
    "layouts" "blog/post.html").2.1 (by decide) { name := "T2" } (by decide)

/-! ## Claim C2 -/

/-- Claim C2, counterexample: the claimed universal fails when the base
context itself defines the key `contents` — with base `{contents:"Y"}`,
empty front matter and rendered content `"X"`, the render context maps
`contents` to `"Y"`, not to the rendered HTML `"X"` (the base overlay
runs after the contents assignment and overwrites it). -/
theorem c2_counterexample :
    getRenderContext [("contents", Val.str "Y")] [] "X" "contents" = some (Val.str "Y") ∧
    getRenderContext [("contents", Val.str "Y")] [] "X" "contents" ≠ some (Val.str "X") := by
  decide

/-- Claim C2 as amended: provided neither the base context nor the
front matter defines a key named `contents` (and the front-matter map
has unique keys, as a Go map does), the render context maps `contents`
to the rendered HTML, every front-matter key holds its front-matter
value (front matter wins over base on collision), and the concrete
instance — base `{a:1}`, front matter `{a:2,b:3}`, content `"X"` —
yields exactly `{contents:"X", a:2, b:3}`. -/
theorem c2_render_context_merge (base fm : List (String × Val)) (content : String)
    (hb : ("contents" : String) ∉ base.map Prod.fst)
    (hf : ("contents" : String) ∉ fm.map Prod.fst)
    (nf : (fm.map Prod.fst).Nodup) :
    getRenderContext base fm content "contents" = some (Val.str content) ∧
    (∀ k v, List.lookup k fm = some v → getRenderContext base fm content k = some v) ∧
    (∀ k, getRenderContext [("a", Val.num 1)] [("a", Val.num 2), ("b", Val.num 3)] "X" k =
      List.lookup k [("contents", Val.str "X"), ("a", Val.num 2), ("b", Val.num 3)]) := by
  refine ⟨?_, ?_, ?_⟩
  · rw [getRenderContext, mapOfList_get, mapOfList_get]
    have h1 : List.lookup "contents" fm.reverse = none := by
      apply lookupGo_eq_none; simpa using hf
    have h2 : List.lookup "contents" base.reverse = none := by
      apply lookupGo_eq_none; simpa using hb
    simp [h1, h2, mapSet]
  · intro k v hkv
    rw [getRenderContext, mapOfList_get, lookupGo_reverse _ _ nf, hkv]
    rfl
  · intro k
    simp only [getRenderContext, mapOfList, List.foldl_cons, List.foldl_nil, mapSet,
      lookupGo_cons, lookupGo_nil]
    by_cases h1 : k = "contents" <;> by_cases h2 : k = "a" <;> by_cases h3 : k = "b" <;>
      simp_all

/-- Witness for C2: on the concrete merge instance the context maps
`contents` to the rendered HTML. -/
theorem c2_witness :
    getRenderContext [("a", Val.num 1)] [("a", Val.num 2), ("b", Val.num 3)] "X" "contents"
      = some (Val.str "X") :=
  (c2_render_context_merge [("a", Val.num 1)] [("a", Val.num 2), ("b", Val.num 3)] "X"
    (by decide) (by decide) (by decide)).1

/-! ## Claim C6 -/

/-- Claim C6, counterexample: a front matter that defines `contents`
overrides the content-produced key — with front matter
`{contents:"Z"}` and rendered HTML `"X"` the render context maps
`contents` to `"Z"`, because the contents assignment happens first and
the front-matter overlay overwrites it, contrary to the claim that the
content-produced key wins. -/
theorem c6_counterexample :
    getRenderContext [] [("contents", Val.str "Z")] "X" "contents" = some (Val.str "Z") ∧
    getRenderContext [] [("contents", Val.str "Z")] "X" "contents" ≠ some (Val.str "X") := by
  decide

/-- Claim C6 as amended: the key `contents` is assigned the rendered
HTML first, before the generic merge, so a colliding front-matter
binding (or, failing that, a colliding base binding) overwrites it;
`contents` holds the rendered HTML exactly when neither overlay binds
that key. -/
theorem c6_contents_key_resolution (base fm : List (String × Val)) (content : String) :
    getRenderContext base fm content "contents" =
      ((List.lookup "contents" fm.reverse).or
        ((List.lookup "contents" base.reverse).or (some (Val.str content)))) := by
  rw [getRenderContext, mapOfList_get, mapOfList_get]
  simp [mapSet]

/-! ## Helper lemmas for the coordinator -/

theorem initTemplateMap_ok_iff (pf : String → Except String Template) (l : List String) :
    (∃ m, initTemplateMap pf l = .ok m) ↔ ∀ f ∈ l, ∃ t, pf f = .ok t := by
  induction l with
  | nil => simp [initTemplateMap]
  | cons f rest ih =>
    constructor
    · rintro ⟨m, hm⟩
      cases hp : pf f with
      | error e => simp [initTemplateMap, hp] at hm
      | ok t =>
        cases hr : initTemplateMap pf rest with
        | error e => simp [initTemplateMap, hp, hr] at hm
        | ok m2 =>
          intro g hg
          rcases List.mem_cons.mp hg with h | h
          · exact ⟨t, h ▸ hp⟩
          · exact (ih.mp ⟨m2, hr⟩) g h
    · intro h
      obtain ⟨t, ht⟩ := h f (List.mem_cons_self f rest)
      obtain ⟨m2, hm2⟩ := ih.mpr (fun g hg => h g (List.mem_cons_of_mem _ hg))
      exact ⟨(f, t) :: m2, by simp [initTemplateMap, ht, hm2]⟩

theorem firstErrorOf_ok_iff (l : List (Except String Unit)) :
    firstErrorOf l = .ok () ↔ ∀ x ∈ l, x = .ok () := by
  induction l with
  | nil => simp [firstErrorOf]
  | cons x rest ih =>
    cases x with
    | ok u => cases u; simp [firstErrorOf, ih]
    | error e => simp [firstErrorOf]

/-- The coordinator result characterized: the build succeeds exactly
when every phase and every per-file render succeeds. -/
theorem runModel_ok_characterization (dp sc : Except String Unit)
    (md : Except String (List String)) (ign : List String)
    (tf : Except String (List String)) (pf : String → Except String Template)
    (render : String → Except String Unit) :
    runModel dp sc md ign tf pf render = .ok () ↔
      (dp = .ok () ∧ sc = .ok () ∧
       ∃ files, md = .ok files ∧
         ∃ tfiles, tf = .ok tfiles ∧
           (∀ f ∈ tfiles, ∃ t, pf f = .ok t) ∧
           (∀ f ∈ purgeIgnoreFiles ign files, render f = .ok ())) := by
  cases dp with
  | error e => simp [runModel]
  | ok u =>
    cases u
    cases sc with
    | error e => simp [runModel]
    | ok u2 =>
      cases u2
      cases md with
      | error e => simp [runModel]
      | ok files =>
        cases tf with
        | error e => simp [runModel]
        | ok tfiles =>
          cases hit : initTemplateMap pf tfiles with
          | error e =>
            simp only [runModel, hit]
            constructor
            · intro h; exact absurd h (by simp)
            · rintro ⟨-, -, files2, hf2, tfiles2, htf2, hall, -⟩
              cases hf2
              cases htf2
              obtain ⟨m, hm⟩ := (initTemplateMap_ok_iff pf tfiles).mpr hall
              rw [hm] at hit
              cases hit
          | ok m =>
            simp only [runModel, hit]
            rw [firstErrorOf_ok_iff]
            constructor
            · intro h
              refine ⟨by simp, by simp, files, by simp, tfiles, by simp, ?_, ?_⟩
              · exact (initTemplateMap_ok_iff pf tfiles).mp ⟨m, hit⟩
              · intro f hf
                exact h (render f) (List.mem_map_of_mem render hf)
            · rintro ⟨-, -, files2, hf2, tfiles2, htf2, -, hrender⟩
              cases hf2
              cases htf2
              intro x hx
              obtain ⟨f, hf, rfl⟩ := List.mem_map.mp hx
              exact hrender f hf

/-- Claim C3: the coordinator returns an error whenever any phase fails
— destination preparation, static copy, discovery, template loading, or
any single per-file rendering task — and returns success exactly when
all of them succeed; there is no partial-success result. -/
theorem c3_run_all_or_nothing (dp sc : Except String Unit)
    (md : Except String (List String)) (ign : List String)
    (tf : Except String (List String)) (pf : String → Except String Template)
    (render : String → Except String Unit) :
    runModel dp sc md ign tf pf render = .ok () ↔
      (dp = .ok () ∧ sc = .ok () ∧
       ∃ files, md = .ok files ∧
         ∃ tfiles, tf = .ok tfiles ∧
           (∀ f ∈ tfiles, ∃ t, pf f = .ok t) ∧
           (∀ f ∈ purgeIgnoreFiles ign files, render f = .ok ())) :=
  runModel_ok_characterization dp sc md ign tf pf render

/-- Witness for C3: a one-file build with all phases succeeding
succeeds. -/
theorem c3_witness :
    runModel (.ok ()) (.ok ()) (.ok ["a.md"]) [] (.ok ["layouts/default.html"])
      (fun _ => .ok { name := "D" }) (fun _ => .ok ()) = .ok () :=
  (c3_run_all_or_nothing (.ok ()) (.ok ()) (.ok ["a.md"]) [] (.ok ["layouts/default.html"])
    (fun _ => .ok { name := "D" }) (fun _ => .ok ())).mpr
    ⟨rfl, rfl, ["a.md"], rfl, ["layouts/default.html"], rfl,
      fun _ _ => ⟨{ name := "D" }, rfl⟩, fun _ _ => rfl⟩

/-- Claim C4, counterexample: a front-matter block that parses to the
zero value (for instance an empty block) makes the front matter equal
the default even though the parser did not return the original bytes
unchanged, refuting the claimed equivalence in the default-implies-
unchanged direction. -/
theorem c4_counterexample :
    getFileData (fun _ => .ok "---\n---\nhi") (fun _ => .ok (defaultYfm, "hi"))
      (fun s => .ok s) "p.md"
      = .ok { path := "p.md", content := "hi", frontMatter := defaultYfm } ∧
    ("hi" : String) ≠ "---\n---\nhi" := by
  decide

/-- Claim C4 as amended: whenever extraction succeeds, the content
equals the Markdown rendering of the parser remainder, and the front
matter is the default value if the parser returned the original bytes
unchanged, and the parsed front matter otherwise (which may itself
coincide with the default). -/
theorem c4_getFileData_characterization (readFile : String → Except String String)
    (parseFM : String → Except String (YamlFrontMatter × String))
    (gm : String → Except String String) (path content md html : String)
    (yfm : YamlFrontMatter)
    (hr : readFile path = .ok content) (hp : parseFM content = .ok (yfm, md))
    (hg : gm md = .ok html) :
    getFileData readFile parseFM gm path =
      .ok { path := path, content := html,
            frontMatter := if content = md then defaultYfm else yfm } := by
  simp only [getFileData, hr, hp, hg]
  by_cases h : content = md <;> simp [h]

/-- Witness for C4: a file with no front-matter block keeps the default
front matter and the rendered remainder. -/
theorem c4_witness :
    getFileData (fun _ => .ok "body")
      (fun s => .ok ({ postSlug := "s", ogImage := "", emoji := "", extra := [] }, s))
      (fun _ => .ok "html") "x.md"
      = .ok { path := "x.md", content := "html", frontMatter := defaultYfm } := by
  have h := c4_getFileData_characterization (fun _ => .ok "body")
    (fun s => .ok ({ postSlug := "s", ogImage := "", emoji := "", extra := [] }, s))
    (fun _ => .ok "html") "x.md" "body" "body" "html"
    { postSlug := "s", ogImage := "", emoji := "", extra := [] } rfl rfl rfl
  simpa using h

/-- Claim C5: a parsed front matter with an empty slug gets the slug
set to the html output path with the `.html` suffix stripped and
forward-slash separators; a non-empty slug is left unchanged; the
defaulting is idempotent; and the file `blog/hello.md` yields slug
`blog/hello`. -/
theorem c5_slug_defaulting (markdownPath : String) (yfm : YamlFrontMatter) :
    (yfm.postSlug = "" →
      (defaultPostSlug (convertMarkdownPathToHtmlPath markdownPath) yfm).postSlug
        = toSlash (trimSuffixGo (convertMarkdownPathToHtmlPath markdownPath) ".html")) ∧
    (yfm.postSlug ≠ "" →
      defaultPostSlug (convertMarkdownPathToHtmlPath markdownPath) yfm = yfm) ∧
    (defaultPostSlug (convertMarkdownPathToHtmlPath markdownPath)
      (defaultPostSlug (convertMarkdownPathToHtmlPath markdownPath) yfm)
        = defaultPostSlug (convertMarkdownPathToHtmlPath markdownPath) yfm) ∧
    ((defaultPostSlug (convertMarkdownPathToHtmlPath "blog/hello.md") defaultYfm).postSlug
      = "blog/hello") := by
  refine ⟨?_, ?_, ?_, ?_⟩
  · intro h; simp [defaultPostSlug, h]
  · intro h; simp [defaultPostSlug, h]
  · by_cases h : yfm.postSlug = ""
    · simp only [defaultPostSlug, h, if_pos]
      split <;> rfl
    · simp [defaultPostSlug, h]
  · decide

/-- Witness for C5: the slug-defaulting equation instantiated at
`blog/hello.md` with an empty slug. -/
theorem c5_witness :
    (defaultPostSlug (convertMarkdownPathToHtmlPath "blog/hello.md") defaultYfm).postSlug
      = toSlash (trimSuffixGo (convertMarkdownPathToHtmlPath "blog/hello.md") ".html") :=
  (c5_slug_defaulting "blog/hello.md" defaultYfm).1 rfl

/-! ## The extension is a suffix of the path -/

theorem extGoAux_split (rev : List Char) : ∀ acc,
    extGoAux rev acc = "" ∨
    ∃ body rest, (extGoAux rev acc).data = body ++ acc ∧ rev = body.reverse ++ rest := by
  induction rev with
  | nil => intro acc; left; rfl
  | cons c rev ih =>
    intro acc
    cases hs : isSep c with
    | true => left; simp [extGoAux, hs]
    | false =>
      by_cases hd : c = '.'
      · right
        refine ⟨['.'], rev, ?_, ?_⟩
        · subst hd
          simp [extGoAux, show isSep '.' = false from rfl]
        · simp [hd]
      · rcases ih (c :: acc) with h | ⟨body, rest, h1, h2⟩
        · left; simpa [extGoAux, hs, hd] using h
        · right
          refine ⟨body ++ [c], rest, ?_, ?_⟩
          · simp [extGoAux, hs, hd, h1]
          · simp [h2]

theorem extGo_suffix (p : String) :
    extGo p = "" ∨ ∃ stem, p.data = stem ++ (extGo p).data := by
  rcases extGoAux_split p.data.reverse [] with h | ⟨body, rest, h1, h2⟩
  · left; exact h
  · right
    refine ⟨rest.reverse, ?_⟩
    have hrev : p.data = (p.data.reverse).reverse := by simp
    rw [hrev, h2]
    have hext : (extGo p).data = body := by simpa [extGo] using h1
    rw [hext]
    simp [List.reverse_append]

/-- Claim C10: `replaceExt` with pattern `.md` rewrites the final
extension exactly when its lowercasing equals `.md` and returns the
path unchanged otherwise; the comparison is case-insensitive, so a path
ending in `.MD` is converted even though discovery (`getFilePathsByExt`
with its case-sensitive suffix test) does not match such a file. -/
theorem c10_replaceExt_case_insensitive (p toExt : String) :
    (toLowerGo (extGo p) ≠ ".md" → replaceExt p ".md" toExt = p) ∧
    (toLowerGo (extGo p) = ".md" →
      ∃ stem : List Char, p.data = stem ++ (extGo p).data ∧
        (replaceExt p ".md" toExt).data = stem ++ toExt.data) ∧
    replaceExt "x.MD" ".md" ".html" = "x.html" ∧
    getFilePathsByExt "." ".md" (some [FNode.file "x.MD"]) = .ok [] := by
  refine ⟨?_, ?_, ?_, ?_⟩
  · intro h; simp [replaceExt, h]
  · intro h
    have hne : extGo p ≠ "" := by
      intro h0
      rw [h0] at h
      exact absurd h (by decide)
    rcases extGo_suffix p with h0 | ⟨stem, hstem⟩
    · exact absurd h0 hne
    refine ⟨stem, hstem, ?_⟩
    have hlen : p.data.length - (extGo p).data.length = stem.length := by
      rw [hstem]; simp
    have hdata : (replaceExt p ".md" toExt).data
        = p.data.take (p.data.length - (extGo p).data.length) ++ toExt.data := by
      simp only [replaceExt]
      rw [if_neg (by simp [h])]
      rfl
    rw [hdata, hlen, hstem, List.take_left]
  · decide
  · simp [getFilePathsByExt, walkList]
    decide

/-- Witness for C10: a path with a non-matching extension passes
through unchanged. -/
theorem c10_witness :
    replaceExt "x.txt" ".md" ".html" = "x.txt" :=
  (c10_replaceExt_case_insensitive "x.txt" ".html").1 (by decide)

/-- Claim C9: when the static-assets directory does not exist, the
static-copy step performs no copies and returns success, and a build
whose remaining phases all succeed therefore still succeeds, producing
zero copied static files. -/
theorem c9_static_copy_skip (o : FsOracle) (src dist : String) :
    copyStatic o src dist none = (Except.ok (), []) ∧
    (∀ (md : Except String (List String)) (ign : List String)
        (tf : Except String (List String)) (pf : String → Except String Template)
        (render : String → Except String Unit) (files tfiles : List String),
      md = .ok files → tf = .ok tfiles →
      (∀ f ∈ tfiles, ∃ t, pf f = .ok t) →
      (∀ f ∈ purgeIgnoreFiles ign files, render f = .ok ()) →
      runModel (.ok ()) (copyStatic o src dist none).1 md ign tf pf render = .ok ()) := by
  refine ⟨rfl, ?_⟩
  intro md ign tf pf render files tfiles hmd htf hparse hrender
  exact (runModel_ok_characterization _ _ _ _ _ _ _).mpr
    ⟨rfl, rfl, files, hmd, tfiles, htf, hparse, hrender⟩

/-- Witness for C9: a build whose static root is missing and whose
other phases trivially succeed returns success with no copy events. -/
theorem c9_witness :
    copyStatic { mkdirErr := fun _ => none, copyErr := fun _ _ => none } "static" "dist" none
      = (Except.ok (), []) ∧
    runModel (.ok ())
      (copyStatic { mkdirErr := fun _ => none, copyErr := fun _ _ => none } "static" "dist" none).1
      (.ok []) [] (.ok []) (fun _ => .error "t") (fun _ => .error "r") = .ok () := by
  refine ⟨(c9_static_copy_skip { mkdirErr := fun _ => none, copyErr := fun _ _ => none } "static" "dist").1, ?_⟩
  exact (c9_static_copy_skip { mkdirErr := fun _ => none, copyErr := fun _ _ => none } "static" "dist").2
    (.ok []) [] (.ok []) (fun _ => .error "t") (fun _ => .error "r") [] [] rfl rfl
    (by simp) (by simp [purgeIgnoreFiles])

/-- A concrete render environment with an empty template registry: the
destination file is creatable, extraction would succeed, but template
resolution fails. -/
def c8Env : RenderEnv where
  dist := "dist"
  layouts := "layouts"
  templateMap := []
  base := []
  existDir := fun _ => false
  mkdirErr := fun _ => none
  createErr := fun _ => none
  readFile := fun _ => .ok "body"
  parseFM := fun s => .ok (defaultYfm, s)
  gm := fun s => .ok s
  asMapF := fun _ => []
  saveTwemoji := fun _ => .ok ()
  frender := fun _ _ => .ok ()

/-- Claim C8, counterexample: rendering `a.md` in an environment whose
template registry is empty fails at template resolution, yet the
destination file `dist/a.html` has already been created (after the
directory), refuting the claim that no destination file is created for
an input whose template resolution fails. -/
theorem c8_counterexample :
    (renderContent c8Env "a.md").1 = Except.error "template not found" ∧
    FsEvent.createFile "dist/a.html" ∈ (renderContent c8Env "a.md").2 := by
  decide

/-- Claim C8 as amended: `renderContent` computes the output path,
creates the missing destination directory and the destination file,
then resolves the template, extracts the document, builds the context,
and finally writes the rendered output, each failure short-circuiting —
so when template resolution or extraction fails the destination file
has already been created (its creation event is in the performed
trace), while no rendered output is written. -/
theorem c8_render_order (env : RenderEnv) (markdownPath : String) :
    (∀ ev, createDistFile env (joinGo [env.dist, convertMarkdownPathToHtmlPath markdownPath])
        = (.ok (), ev) →
      ev = (if env.existDir (dirGo (joinGo [env.dist, convertMarkdownPathToHtmlPath markdownPath]))
            then ([] : List FsEvent)
            else [FsEvent.mkdirAll (dirGo (joinGo [env.dist, convertMarkdownPathToHtmlPath markdownPath]))])
          ++ [FsEvent.createFile (joinGo [env.dist, convertMarkdownPathToHtmlPath markdownPath])]) ∧
    (∀ e ev, createDistFile env (joinGo [env.dist, convertMarkdownPathToHtmlPath markdownPath])
        = (.error e, ev) →
      renderContent env markdownPath = (.error e, ev)) ∧
    (∀ ev e, createDistFile env (joinGo [env.dist, convertMarkdownPathToHtmlPath markdownPath])
        = (.ok (), ev) →
      lookUpTemplate env.templateMap env.layouts (convertMarkdownPathToHtmlPath markdownPath)
        = .error e →
      renderContent env markdownPath = (.error e, ev)) ∧
    (∀ ev t e, createDistFile env (joinGo [env.dist, convertMarkdownPathToHtmlPath markdownPath])
        = (.ok (), ev) →
      lookUpTemplate env.templateMap env.layouts (convertMarkdownPathToHtmlPath markdownPath)
        = .ok t →
      getFileData env.readFile env.parseFM env.gm markdownPath = .error e →
      renderContent env markdownPath = (.error e, ev)) ∧
    (∀ ev t fd yfm2 ev1, createDistFile env (joinGo [env.dist, convertMarkdownPathToHtmlPath markdownPath])
        = (.ok (), ev) →
      lookUpTemplate env.templateMap env.layouts (convertMarkdownPathToHtmlPath markdownPath)
        = .ok t →
      getFileData env.readFile env.parseFM env.gm markdownPath = .ok fd →
      renderOgImage env markdownPath
        (defaultPostSlug (convertMarkdownPathToHtmlPath markdownPath) fd.frontMatter)
        = (.ok yfm2, ev1) →
      env.frender t (getRenderContext env.base (env.asMapF yfm2) fd.content) = .ok () →
      renderContent env markdownPath
        = (.ok (), ev ++ ev1
            ++ [FsEvent.writeRendered (joinGo [env.dist, convertMarkdownPathToHtmlPath markdownPath])])) := by
  refine ⟨?_, ?_, ?_, ?_, ?_⟩
  · intro ev h
    cases hex : env.existDir (dirGo (joinGo [env.dist, convertMarkdownPathToHtmlPath markdownPath])) with
    | true =>
      cases hc : env.createErr (joinGo [env.dist, convertMarkdownPathToHtmlPath markdownPath]) with
      | some e => simp [createDistFile, hex, hc] at h
      | none =>
        simp [createDistFile, hex, hc] at h
        simp [← h]
    | false =>
      cases hm : env.mkdirErr (dirGo (joinGo [env.dist, convertMarkdownPathToHtmlPath markdownPath])) with
      | some e => simp [createDistFile, hex, hm] at h
      | none =>
        cases hc : env.createErr (joinGo [env.dist, convertMarkdownPathToHtmlPath markdownPath]) with
        | some e => simp [createDistFile, hex, hm, hc] at h
        | none =>
          simp [createDistFile, hex, hm, hc] at h
          simp [← h]
  · intro e ev h
    simp only [renderContent, h]
  · intro ev e h hl
    simp only [renderContent, h, hl]
  · intro ev t e h hl hg
    simp only [renderContent, h, hl, hg]
  · intro ev t fd yfm2 ev1 h hl hg hog hf
    simp only [renderContent, h, hl, hg, hog, hf]

/-- The environment of `c8Env` with a global default template
installed, so that rendering succeeds end to end. -/
def c8EnvOk : RenderEnv :=
  { c8Env with templateMap := [("layouts/default.html", { name := "D" })] }

/-- Witness for C8: a successful render performs exactly the directory
creation, the destination-file creation, and the rendered write, in
that order. -/
theorem c8_witness :
    renderContent c8EnvOk "a.md"
      = (.ok (), [FsEvent.mkdirAll "dist", FsEvent.createFile "dist/a.html",
                  FsEvent.writeRendered "dist/a.html"]) := by
  have h := (c8_render_order c8EnvOk "a.md").2.2.2.2
    [FsEvent.mkdirAll "dist", FsEvent.createFile "dist/a.html"]
    { name := "D" } { path := "a.md", content := "body", frontMatter := defaultYfm }
    { postSlug := "a", ogImage := "", emoji := "", extra := [] } []
    (by decide) (by decide) (by decide) (by decide) rfl
  simpa using h

/-! ## Invariants of the goroutine fan-out -/

/-- Every reachable state of the fan-out satisfies: a closed channel
means all tasks are done; a successful main return means the channel
was closed; an error return names a task whose render genuinely
failed; and a task blocked in a channel send has a failing outcome. -/
theorem coordReach_invariant (outcome : List Bool) (s : CoordSt)
    (h : CoordReach outcome s) :
    (s.closed = true → s.tasks.all (· = TaskSt.done) = true) ∧
    (s.main = MainSt.retOk → s.closed = true) ∧
    (∀ i, s.main = MainSt.retErr i → outcome.get? i = some false) ∧
    (∀ i, s.tasks.get? i = some TaskSt.sending → outcome.get? i = some false) := by
  induction h with
  | init =>
    refine ⟨?_, ?_, ?_, ?_⟩
    · intro hc; simp [coordInit] at hc
    · intro hm; simp [coordInit] at hm
    · intro i hi; simp [coordInit] at hi
    · intro i hi
      simp only [coordInit, List.get?_eq_getElem?, List.getElem?_replicate] at hi
      by_cases hlt : i < outcome.length
      · simp [hlt] at hi
      · simp [hlt] at hi
  | @step s t hreach hmem ih =>
    simp only [coordNexts] at hmem
    rcases List.mem_append.mp hmem with h12 | hmain
    · rcases List.mem_append.mp h12 with htask | hcloser
      · -- a task transition
        obtain ⟨i, hi, hf⟩ := List.mem_filterMap.mp htask
        cases hti : s.tasks.get? i with
        | none => rw [hti] at hf; simp at hf
        | some st =>
          cases st with
          | done => rw [hti] at hf; simp at hf
          | running =>
            cases hoi : outcome.get? i with
            | none => rw [hti, hoi] at hf; simp at hf
            | some b =>
              cases b with
              | true =>
                rw [hti, hoi] at hf
                simp at hf
                subst hf
                refine ⟨?_, ih.2.1, ih.2.2.1, ?_⟩
                · intro hc
                  have hall := List.all_eq_true.mp (ih.1 hc) _ (List.get?_mem hti)
                  simp at hall
                · intro j hj
                  by_cases hij : i = j
                  · subst hij
                    rw [List.get?_eq_getElem?] at hj
                    rw [List.getElem?_set_self] at hj
                    · simp at hj
                    · exact List.mem_range.mp hi
                  · rw [List.get?_eq_getElem?, List.getElem?_set_ne hij] at hj
                    rw [← List.get?_eq_getElem?] at hj
                    exact ih.2.2.2 j hj
              | false =>
                rw [hti, hoi] at hf
                simp at hf
                subst hf
                refine ⟨?_, ih.2.1, ih.2.2.1, ?_⟩
                · intro hc
                  have hall := List.all_eq_true.mp (ih.1 hc) _ (List.get?_mem hti)
                  simp at hall
                · intro j hj
                  by_cases hij : i = j
                  · subst hij; exact hoi
                  · rw [List.get?_eq_getElem?, List.getElem?_set_ne hij] at hj
                    rw [← List.get?_eq_getElem?] at hj
                    exact ih.2.2.2 j hj
          | sending =>
            rw [hti] at hf
            by_cases hguard : s.main = MainSt.listening ∧ ¬ s.closed = true
            · rw [if_pos hguard] at hf
              simp at hf
              subst hf
              refine ⟨?_, ?_, ?_, ?_⟩
              · intro hc; exact absurd hc hguard.2
              · intro hm; simp at hm
              · intro j hj
                simp at hj
                subst hj
                exact ih.2.2.2 i hti
              · intro j hj
                by_cases hij : i = j
                · subst hij
                  rw [List.get?_eq_getElem?] at hj
                  rw [List.getElem?_set_self] at hj
                  · simp at hj
                  · exact List.mem_range.mp hi
                · rw [List.get?_eq_getElem?, List.getElem?_set_ne hij] at hj
                  rw [← List.get?_eq_getElem?] at hj
                  exact ih.2.2.2 j hj
            · rw [if_neg hguard] at hf
              simp at hf
      · -- the closer transition
        by_cases hg : ¬ s.closed = true ∧ s.tasks.all (· = TaskSt.done) = true
        · rw [if_pos hg] at hcloser
          have ht : t = { s with closed := true } := List.mem_singleton.mp hcloser
          subst ht
          refine ⟨?_, ?_, ih.2.2.1, ih.2.2.2⟩
          · intro _; exact hg.2
          · intro _; rfl
        · rw [if_neg hg] at hcloser
          exact absurd hcloser (List.not_mem_nil t)
    · -- the main-return transition
      by_cases hg : s.main = MainSt.listening ∧ s.closed = true
      · rw [if_pos hg] at hmain
        have ht : t = { s with main := MainSt.retOk } := List.mem_singleton.mp hmain
        subst ht
        refine ⟨ih.1, ?_, ?_, ih.2.2.2⟩
        · intro _; exact hg.2
        · intro j hj; simp at hj
      · rw [if_neg hg] at hmain
        exact absurd hmain (List.not_mem_nil t)

/-- Claim C7, counterexample: with two dispatched tasks of which the
first fails, the fan-out reaches a state in which the coordinator has
already returned the first error while the second task is still
running — the coordinator does not wait for all tasks to finish before
reporting its result. -/
theorem c7_counterexample :
    CoordReach [false, true]
      { tasks := [TaskSt.done, TaskSt.running], closed := false, main := MainSt.retErr 0 } ∧
    ({ tasks := [TaskSt.done, TaskSt.running], closed := false,
       main := MainSt.retErr 0 } : CoordSt).main ≠ MainSt.listening ∧
    ¬ (({ tasks := [TaskSt.done, TaskSt.running], closed := false,
          main := MainSt.retErr 0 } : CoordSt).tasks.all (· = TaskSt.done) = true) := by
  refine ⟨?_, by decide, by decide⟩
  have h0 : CoordReach [false, true] (coordInit 2) := CoordReach.init
  have h1 : CoordReach [false, true]
      { tasks := [TaskSt.sending, TaskSt.running], closed := false, main := MainSt.listening } :=
    CoordReach.step h0 (by decide)
  exact CoordReach.step h1 (by decide)

/-- Claim C7 as amended: the coordinator waits for every task only on
the success path — whenever it reports success, every dispatched task
has finished — while an error is reported as soon as it is received
(the reported error always belongs to a genuinely failing task), and
the coordinator may return it while other tasks are still running. -/
theorem c7_success_waits_for_all (outcome : List Bool) (s : CoordSt)
    (h : CoordReach outcome s) :
    (s.main = MainSt.retOk → s.tasks.all (· = TaskSt.done) = true) ∧
    (∀ i, s.main = MainSt.retErr i → outcome.get? i = some false) := by
  have hinv := coordReach_invariant outcome s h
  exact ⟨fun hm => hinv.1 (hinv.2.1 hm), hinv.2.2.1⟩

/-- Witness for C7: a one-task all-success run that has reported
success has its task finished. -/
theorem c7_witness :
    ({ tasks := [TaskSt.done], closed := true, main := MainSt.retOk } : CoordSt).tasks.all
      (· = TaskSt.done) = true := by
  have h0 : CoordReach [true] (coordInit 1) := CoordReach.init
  have h1 : CoordReach [true]
      { tasks := [TaskSt.done], closed := false, main := MainSt.listening } :=
    CoordReach.step h0 (by decide)
  have h2 : CoordReach [true]
      { tasks := [TaskSt.done], closed := true, main := MainSt.listening } :=
    CoordReach.step h1 (by decide)
  have h3 : CoordReach [true]
      { tasks := [TaskSt.done], closed := true, main := MainSt.retOk } :=
    CoordReach.step h2 (by decide)
  exact (c7_success_waits_for_all [true] _ h3).1 rfl
